import Mathlib

/-!
# Verification of the HeatDuel turn-based card duel engine

Shallow embedding of `src/overheat.js` (class `HeatDuelGame`). The mutable
`this.state` object becomes an explicit `GameState` record threaded through
every operation; methods that `throw` return `Except GameError GameState`.
The `log` array and `console.log` output are diagnostic only (never read by
the logic) and are omitted from the state. JavaScript numbers are modelled
as exact integers, with the damage computation carried out in `ℚ` so that
`Math.floor` becomes `Int.floor`. The `setTimeout` continuation in
`_endTurn` is a collaborator concern and is not part of the synchronous
state change performed by a call.
-/

/-- Side identifiers: the two keys of `state.players`. -/
inductive Pid where
  | p1
  | p2
deriving DecidableEq, Repr

/-- `card.type` is one of the strings `'attack'` and `'defense'`. -/
inductive CardType where
  | attack
  | defense
deriving DecidableEq, Repr

/-- A card record. In JS the numeric fields are optional; an absent field and
a zero field behave identically under the truthiness guards
(`if (card.damage && ...)`, `if (card.heatChange)`, `if (card.heal)`),
so each optional field is modelled as an `Int` defaulting to 0. -/
structure Card where
  name : String
  type : CardType
  damage : Int := 0
  heatChange : Int := 0
  heal : Int := 0
deriving DecidableEq, Repr

/-- One entry of `state.players`. -/
structure Player where
  hp : Int
  heat : Int
  skipped : Bool
  hand : List Card
  deck : List Card
  selectedCard : Option Card
deriving DecidableEq, Repr

/-- `state.phase` values. -/
inductive Phase where
  | start
  | action
  | defense
  | insert
  | done
deriving DecidableEq, Repr

/-- `state.mode` values. -/
inductive Mode where
  | classic
  | simultaneous
deriving DecidableEq, Repr

/-- The whole of `this.state`, minus the diagnostic `log`. -/
structure GameState where
  p1 : Player
  p2 : Player
  turn : Pid
  phase : Phase
  mode : Mode
deriving DecidableEq, Repr

/-- Errors thrown by the play methods. -/
inductive GameError where
  | invalidMode
  | invalidCard
deriving DecidableEq, Repr

/-- `_getOpponent`. -/
def other : Pid → Pid
  | .p1 => .p2
  | .p2 => .p1

/-- Read `state.players[pid]`. -/
def GameState.getP (s : GameState) : Pid → Player
  | .p1 => s.p1
  | .p2 => s.p2

/-- Write `state.players[pid]`. -/
def GameState.setP (s : GameState) (pid : Pid) (pl : Player) : GameState :=
  match pid with
  | .p1 => { s with p1 := pl }
  | .p2 => { s with p2 := pl }

/-- The constructor `new HeatDuelGame(deck1, deck2, mode)`. -/
def initGame (deck1 deck2 : List Card) (mode : Mode) : GameState :=
  { p1 := { hp := 100, heat := 0, skipped := false, hand := [], deck := deck1, selectedCard := none }
    p2 := { hp := 100, heat := 0, skipped := false, hand := [], deck := deck2, selectedCard := none }
    turn := .p1
    phase := .start
    mode := mode }

/-- `_drawCard(playerId)`: move the front of the deck to the back of the hand,
no-op when the deck is empty. -/
def _drawCard (pid : Pid) (s : GameState) : GameState :=
  let player := s.getP pid
  match player.deck with
  | [] => s
  | card :: rest => s.setP pid { player with deck := rest, hand := player.hand ++ [card] }

/-- `_applyCardEffects(playerId, card, isInsertAttack)`: heat change, then
damage, then heal, exactly as the three `if` blocks of the source. -/
def _applyCardEffects (pid : Pid) (card : Card) (isInsertAttack : Bool) (s : GameState) : GameState :=
  -- if (card.heatChange) { player.heat += card.heatChange }
  let s1 :=
    if card.heatChange ≠ 0 then
      let player := s.getP pid
      s.setP pid { player with heat := player.heat + card.heatChange }
    else s
  -- if (card.damage && card.type === 'attack') { ... opponent.hp -= finalDamage }
  let s2 :=
    if card.damage ≠ 0 ∧ card.type = .attack then
      let player := s1.getP pid
      let opponent := s1.getP (other pid)
      let attackMultiplier : ℚ := (player.heat : ℚ) / 100
      let defenseMultiplier : ℚ :=
        1 - ((if isInsertAttack then opponent.heat else player.heat : Int) : ℚ) / 100
      let finalDamage : Int := max 0 ⌊(card.damage : ℚ) * attackMultiplier * defenseMultiplier⌋
      s1.setP (other pid) { opponent with hp := opponent.hp - finalDamage }
    else s1
  -- if (card.heal) { player.hp = Math.min(100, player.hp + card.heal) }
  if card.heal ≠ 0 then
    let player := s2.getP pid
    s2.setP pid { player with hp := min 100 (player.hp + card.heal) }
  else s2

/-- `_findAttackCard(playerId)`: first attack-type card in hand order. -/
def _findAttackCard (pid : Pid) (s : GameState) : Option Card :=
  (s.getP pid).hand.find? (fun card => card.type == .attack)

/-- `_checkInsertTurn(attacker, defender)`. -/
def _checkInsertTurn (attacker defender : Pid) (s : GameState) : GameState :=
  let heatDiff := (s.getP attacker).heat - (s.getP defender).heat
  if heatDiff > 50 then
    match _findAttackCard defender s with
    | some attackCard => _applyCardEffects defender attackCard true s
    | none => s
  else s

/-- `_checkOverheat(playerId)`. -/
def _checkOverheat (pid : Pid) (s : GameState) : GameState :=
  let player := s.getP pid
  if player.heat > 100 then
    s.setP pid { player with skipped := true, heat := 0 }
  else s

/-- `_checkGameOver()`: `some w` means the game is over with winner `w`
(the source logs the winner and returns `true`); `none` means it continues. -/
def _checkGameOver (s : GameState) : Option Pid :=
  if s.p1.hp ≤ 0 then some .p2
  else if s.p2.hp ≤ 0 then some .p1
  else none

/-- `_endTurn()`: flip the turn and set phase to `'end'`. The game-over
evaluation reads the state without mutating it, and the `setTimeout`
continuation is external, so the synchronous state change is just this. -/
def _endTurn (s : GameState) : GameState :=
  { s with turn := other s.turn, phase := .done }

/-- `_resolveTurn()` (classic mode). -/
def _resolveTurn (s : GameState) : GameState :=
  let activePlayer := s.turn
  let opponent := other activePlayer
  _endTurn (_checkOverheat opponent (_checkOverheat activePlayer
    (_checkInsertTurn activePlayer opponent s)))

/-- `delete players.p1.selectedCard; delete players.p2.selectedCard`. -/
def _clearSelected (s : GameState) : GameState :=
  let s1 := s.setP .p1 { s.getP .p1 with selectedCard := none }
  s1.setP .p2 { s1.getP .p2 with selectedCard := none }

/-- The four-way branch of `_resolveSimultaneousTurn` that applies both
cards' effects (always p1 first, then p2) and, in the mixed pairings, runs
the insert-turn check with the attack-typed side as attacker. -/
def _simEffects (p1Card p2Card : Card) (s : GameState) : GameState :=
  if p1Card.type = .attack ∧ p2Card.type = .attack then
    _applyCardEffects .p2 p2Card false (_applyCardEffects .p1 p1Card false s)
  else if p1Card.type = .attack ∧ p2Card.type = .defense then
    _checkInsertTurn .p1 .p2
      (_applyCardEffects .p2 p2Card false (_applyCardEffects .p1 p1Card false s))
  else if p1Card.type = .defense ∧ p2Card.type = .attack then
    _checkInsertTurn .p2 .p1
      (_applyCardEffects .p2 p2Card false (_applyCardEffects .p1 p1Card false s))
  else
    _applyCardEffects .p2 p2Card false (_applyCardEffects .p1 p1Card false s)

/-- `_resolveSimultaneousTurn()`: reads both `selectedCard` slots (the source
only calls it when both are populated), applies effects and insert check,
clears the slots, runs both overheat checks, then ends the turn. -/
def _resolveSimultaneousTurn (s : GameState) : GameState :=
  match s.p1.selectedCard, s.p2.selectedCard with
  | some p1Card, some p2Card =>
    _endTurn (_checkOverheat .p2 (_checkOverheat .p1
      (_clearSelected (_simEffects p1Card p2Card s))))
  | _, _ => s

/-- `startTurn()`. -/
def startTurn (s : GameState) : GameState :=
  let activePlayer := s.turn
  let opponent := other activePlayer
  let s0 : GameState := { s with phase := .start }
  if (s0.getP activePlayer).skipped then
    _endTurn (s0.setP activePlayer { s0.getP activePlayer with skipped := false })
  else
    { _drawCard opponent (_drawCard activePlayer s0) with phase := .action }

/-- `playCard(playerId, cardIndex)` (classic mode). -/
def playCard (playerId : Pid) (cardIndex : Nat) (s : GameState) : Except GameError GameState :=
  if s.mode ≠ .classic then
    .error .invalidMode
  else
    match (s.getP playerId).hand[cardIndex]? with
    | none => .error .invalidCard
    | some card =>
      let player := s.getP playerId
      let s1 := s.setP playerId { player with hand := player.hand.eraseIdx cardIndex }
      let s2 := _applyCardEffects playerId card false s1
      if s2.phase = .action ∧ playerId = s2.turn then
        .ok { s2 with phase := .defense }
      else if s2.phase = .defense ∧ playerId ≠ s2.turn then
        .ok (_resolveTurn s2)
      else
        .ok s2

/-- `playCardSimultaneous(playerId, cardIndex)`. -/
def playCardSimultaneous (playerId : Pid) (cardIndex : Nat) (s : GameState) :
    Except GameError GameState :=
  if s.mode ≠ .simultaneous then
    .error .invalidMode
  else
    match (s.getP playerId).hand[cardIndex]? with
    | none => .error .invalidCard
    | some card =>
      let player := s.getP playerId
      let s1 := s.setP playerId
        { player with selectedCard := some card, hand := player.hand.eraseIdx cardIndex }
      if (s1.getP .p1).selectedCard.isSome ∧ (s1.getP .p2).selectedCard.isSome then
        .ok (_resolveSimultaneousTurn s1)
      else
        .ok s1

/-- Reachable states: the constructor's state, closed under the three
public entry points (`startTurn`, and the two play methods when they
succeed). -/
inductive Reachable : GameState → Prop where
  | init (deck1 deck2 : List Card) (mode : Mode) : Reachable (initGame deck1 deck2 mode)
  | start {s : GameState} : Reachable s → Reachable (startTurn s)
  | play {s t : GameState} {pid : Pid} {i : Nat} :
      Reachable s → playCard pid i s = .ok t → Reachable t
  | playSim {s t : GameState} {pid : Pid} {i : Nat} :
      Reachable s → playCardSimultaneous pid i s = .ok t → Reachable t

/-! ## Concrete cards and states, used to evaluate the engine -/

/-- The card `{ name: '重击', type: 'attack', damage: 25, heatChange: 30 }`
from the example deck (name transliterated). -/
def cardStrike : Card :=
  { name := "bigStrike", type := .attack, damage := 25, heatChange := 30 }

/-- The card `{ name: '格挡', type: 'defense', heatChange: -20 }` from the
example deck (name transliterated). -/
def cardBlock : Card :=
  { name := "block", type := .defense, heatChange := -20 }

/-- A healing card (the source supports a `heal` field; the example deck
has none, so this one is synthetic). -/
def cardHeal : Card :=
  { name := "mend", type := .defense, heal := 50 }

/-- A state in which p1 has overheated (heat 150) and both sides have a
defense card selected, used to exercise the overheat invariant. -/
def wOverheat : GameState :=
  { p1 := { hp := 100, heat := 150, skipped := false, hand := [], deck := [],
            selectedCard := some cardBlock }
    p2 := { hp := 100, heat := 0, skipped := false, hand := [], deck := [],
            selectedCard := some cardBlock }
    turn := .p1
    phase := .action
    mode := .simultaneous }

/-- A classic-mode state: p1 has just attacked up to heat 80, p2 sits at
heat 20 holding a defense card then an attack card. -/
def wInsert : GameState :=
  { p1 := { hp := 100, heat := 80, skipped := false, hand := [], deck := [],
            selectedCard := none }
    p2 := { hp := 100, heat := 20, skipped := false, hand := [cardBlock, cardStrike], deck := [],
            selectedCard := none }
    turn := .p1
    phase := .defense
    mode := .classic }

/-- Like `wInsert` but with a heat difference of exactly 50. -/
def wInsert50 : GameState :=
  { wInsert with p1 := { wInsert.p1 with heat := 70 } }

/-- A simultaneous-mode state in which both sides have selected an attack
card. -/
def wSimAtk : GameState :=
  { p1 := { hp := 100, heat := 0, skipped := false, hand := [], deck := [],
            selectedCard := some cardStrike }
    p2 := { hp := 100, heat := 0, skipped := false, hand := [], deck := [],
            selectedCard := some cardStrike }
    turn := .p1
    phase := .action
    mode := .simultaneous }

/-- A classic-mode state in which p1 (the active side) is flagged skipped. -/
def wSkip : GameState :=
  { p1 := { hp := 70, heat := 40, skipped := true, hand := [cardBlock], deck := [cardStrike],
            selectedCard := none }
    p2 := { hp := 60, heat := 10, skipped := false, hand := [cardStrike], deck := [cardBlock],
            selectedCard := none }
    turn := .p1
    phase := .done
    mode := .classic }

/-- A state in which both sides' hp has dropped below zero. -/
def wDead : GameState :=
  { p1 := { hp := -5, heat := 0, skipped := false, hand := [], deck := [], selectedCard := none }
    p2 := { hp := -3, heat := 0, skipped := false, hand := [], deck := [], selectedCard := none }
    turn := .p1
    phase := .done
    mode := .classic }

/-- A simultaneous-mode state in which p1 holds two cards and nobody has
selected yet. -/
def wDouble : GameState :=
  { p1 := { hp := 100, heat := 0, skipped := false, hand := [cardBlock, cardStrike], deck := [],
            selectedCard := none }
    p2 := { hp := 100, heat := 0, skipped := false, hand := [cardStrike], deck := [],
            selectedCard := none }
    turn := .p1
    phase := .action
    mode := .simultaneous }

/-- `wDouble` after p1 selects hand slot 0 (`cardBlock`). -/
def wDouble1 : GameState :=
  wDouble.setP .p1
    { wDouble.getP .p1 with selectedCard := some cardBlock,
                            hand := (wDouble.getP .p1).hand.eraseIdx 0 }

/-! ## Basic algebra of the state accessors -/

@[simp]
lemma other_p1 : other .p1 = .p2 := rfl

@[simp]
lemma other_p2 : other .p2 = .p1 := rfl

@[simp]
lemma other_other (p : Pid) : other (other p) = p := by cases p <;> rfl

lemma other_ne (p : Pid) : other p ≠ p := by cases p <;> decide

@[simp]
lemma getP_setP_same (s : GameState) (p : Pid) (pl : Player) :
    (s.setP p pl).getP p = pl := by
  cases p <;> rfl

lemma getP_setP_ne (s : GameState) {p q : Pid} (pl : Player) (h : q ≠ p) :
    (s.setP p pl).getP q = s.getP q := by
  cases p <;> cases q <;> first | rfl | exact absurd rfl h

lemma getP_setP (s : GameState) (p q : Pid) (pl : Player) :
    (s.setP p pl).getP q = if q = p then pl else s.getP q := by
  by_cases h : q = p
  · subst h; simp
  · simp [h, getP_setP_ne s pl h]

@[simp]
lemma setP_turn (s : GameState) (p : Pid) (pl : Player) : (s.setP p pl).turn = s.turn := by
  cases p <;> rfl

@[simp]
lemma setP_phase (s : GameState) (p : Pid) (pl : Player) : (s.setP p pl).phase = s.phase := by
  cases p <;> rfl

@[simp]
lemma setP_mode (s : GameState) (p : Pid) (pl : Player) : (s.setP p pl).mode = s.mode := by
  cases p <;> rfl

lemma GameState.ext_getP {s t : GameState}
    (hp : ∀ i, s.getP i = t.getP i) (ht : s.turn = t.turn)
    (hph : s.phase = t.phase) (hm : s.mode = t.mode) : s = t := by
  cases s; cases t
  have h1 := hp .p1
  have h2 := hp .p2
  simp only [GameState.getP] at h1 h2
  simp_all

/-! ## Frame lemmas: the fields each operation leaves untouched -/

lemma apply_frame (pid : Pid) (c : Card) (b : Bool) (s : GameState) (i : Pid) :
    ((_applyCardEffects pid c b s).getP i).hand = (s.getP i).hand ∧
    ((_applyCardEffects pid c b s).getP i).deck = (s.getP i).deck ∧
    ((_applyCardEffects pid c b s).getP i).skipped = (s.getP i).skipped ∧
    ((_applyCardEffects pid c b s).getP i).selectedCard = (s.getP i).selectedCard ∧
    (_applyCardEffects pid c b s).turn = s.turn ∧
    (_applyCardEffects pid c b s).phase = s.phase ∧
    (_applyCardEffects pid c b s).mode = s.mode := by
  cases pid <;> cases i <;>
    simp only [_applyCardEffects, GameState.setP, GameState.getP, other] <;>
    split_ifs <;> simp

lemma insert_frame (a d : Pid) (s : GameState) (i : Pid) :
    ((_checkInsertTurn a d s).getP i).hand = (s.getP i).hand ∧
    ((_checkInsertTurn a d s).getP i).deck = (s.getP i).deck ∧
    ((_checkInsertTurn a d s).getP i).skipped = (s.getP i).skipped ∧
    ((_checkInsertTurn a d s).getP i).selectedCard = (s.getP i).selectedCard ∧
    (_checkInsertTurn a d s).turn = s.turn ∧
    (_checkInsertTurn a d s).phase = s.phase ∧
    (_checkInsertTurn a d s).mode = s.mode := by
  unfold _checkInsertTurn
  dsimp only
  split_ifs
  · cases _findAttackCard d s with
    | some c => exact apply_frame d c true s i
    | none => simp
  · simp

lemma overheat_frame (pid : Pid) (s : GameState) (i : Pid) :
    ((_checkOverheat pid s).getP i).hp = (s.getP i).hp ∧
    ((_checkOverheat pid s).getP i).hand = (s.getP i).hand ∧
    ((_checkOverheat pid s).getP i).deck = (s.getP i).deck ∧
    ((_checkOverheat pid s).getP i).selectedCard = (s.getP i).selectedCard ∧
    (_checkOverheat pid s).turn = s.turn ∧
    (_checkOverheat pid s).phase = s.phase ∧
    (_checkOverheat pid s).mode = s.mode := by
  cases pid <;> cases i <;>
    simp only [_checkOverheat, GameState.setP, GameState.getP] <;>
    split_ifs <;> simp

@[simp]
lemma endTurn_getP (s : GameState) (i : Pid) : (_endTurn s).getP i = s.getP i := by
  cases i <;> rfl

@[simp]
lemma endTurn_turn (s : GameState) : (_endTurn s).turn = other s.turn := rfl

@[simp]
lemma endTurn_phase (s : GameState) : (_endTurn s).phase = .done := rfl

@[simp]
lemma endTurn_mode (s : GameState) : (_endTurn s).mode = s.mode := rfl

lemma clearSelected_frame (s : GameState) (i : Pid) :
    ((_clearSelected s).getP i).hp = (s.getP i).hp ∧
    ((_clearSelected s).getP i).heat = (s.getP i).heat ∧
    ((_clearSelected s).getP i).skipped = (s.getP i).skipped ∧
    ((_clearSelected s).getP i).hand = (s.getP i).hand ∧
    ((_clearSelected s).getP i).deck = (s.getP i).deck ∧
    ((_clearSelected s).getP i).selectedCard = none ∧
    (_clearSelected s).turn = s.turn ∧
    (_clearSelected s).phase = s.phase ∧
    (_clearSelected s).mode = s.mode := by
  cases i <;> simp [_clearSelected, GameState.setP, GameState.getP]

lemma drawCard_frame (pid : Pid) (s : GameState) (i : Pid) :
    ((_drawCard pid s).getP i).hp = (s.getP i).hp ∧
    ((_drawCard pid s).getP i).heat = (s.getP i).heat ∧
    ((_drawCard pid s).getP i).skipped = (s.getP i).skipped ∧
    ((_drawCard pid s).getP i).selectedCard = (s.getP i).selectedCard ∧
    (_drawCard pid s).turn = s.turn ∧
    (_drawCard pid s).phase = s.phase ∧
    (_drawCard pid s).mode = s.mode := by
  cases pid <;> cases i
  · rcases h : s.p1.deck with _ | ⟨c, rest⟩ <;> simp [_drawCard, GameState.getP, GameState.setP, h]
  · rcases h : s.p1.deck with _ | ⟨c, rest⟩ <;> simp [_drawCard, GameState.getP, GameState.setP, h]
  · rcases h : s.p2.deck with _ | ⟨c, rest⟩ <;> simp [_drawCard, GameState.getP, GameState.setP, h]
  · rcases h : s.p2.deck with _ | ⟨c, rest⟩ <;> simp [_drawCard, GameState.getP, GameState.setP, h]

@[simp]
lemma apply_hand (pid : Pid) (c : Card) (b : Bool) (s : GameState) (i : Pid) :
    ((_applyCardEffects pid c b s).getP i).hand = (s.getP i).hand :=
  (apply_frame pid c b s i).1

@[simp]
lemma apply_deck (pid : Pid) (c : Card) (b : Bool) (s : GameState) (i : Pid) :
    ((_applyCardEffects pid c b s).getP i).deck = (s.getP i).deck :=
  (apply_frame pid c b s i).2.1

@[simp]
lemma apply_skipped (pid : Pid) (c : Card) (b : Bool) (s : GameState) (i : Pid) :
    ((_applyCardEffects pid c b s).getP i).skipped = (s.getP i).skipped :=
  (apply_frame pid c b s i).2.2.1

@[simp]
lemma apply_selected (pid : Pid) (c : Card) (b : Bool) (s : GameState) (i : Pid) :
    ((_applyCardEffects pid c b s).getP i).selectedCard = (s.getP i).selectedCard :=
  (apply_frame pid c b s i).2.2.2.1

@[simp]
lemma apply_turn (pid : Pid) (c : Card) (b : Bool) (s : GameState) :
    (_applyCardEffects pid c b s).turn = s.turn :=
  (apply_frame pid c b s .p1).2.2.2.2.1

@[simp]
lemma apply_phase (pid : Pid) (c : Card) (b : Bool) (s : GameState) :
    (_applyCardEffects pid c b s).phase = s.phase :=
  (apply_frame pid c b s .p1).2.2.2.2.2.1

@[simp]
lemma apply_mode (pid : Pid) (c : Card) (b : Bool) (s : GameState) :
    (_applyCardEffects pid c b s).mode = s.mode :=
  (apply_frame pid c b s .p1).2.2.2.2.2.2

@[simp]
lemma insert_hand (a d : Pid) (s : GameState) (i : Pid) :
    ((_checkInsertTurn a d s).getP i).hand = (s.getP i).hand :=
  (insert_frame a d s i).1

@[simp]
lemma insert_deck (a d : Pid) (s : GameState) (i : Pid) :
    ((_checkInsertTurn a d s).getP i).deck = (s.getP i).deck :=
  (insert_frame a d s i).2.1

@[simp]
lemma insert_skipped (a d : Pid) (s : GameState) (i : Pid) :
    ((_checkInsertTurn a d s).getP i).skipped = (s.getP i).skipped :=
  (insert_frame a d s i).2.2.1

@[simp]
lemma insert_selected (a d : Pid) (s : GameState) (i : Pid) :
    ((_checkInsertTurn a d s).getP i).selectedCard = (s.getP i).selectedCard :=
  (insert_frame a d s i).2.2.2.1

@[simp]
lemma insert_turn (a d : Pid) (s : GameState) :
    (_checkInsertTurn a d s).turn = s.turn :=
  (insert_frame a d s .p1).2.2.2.2.1

@[simp]
lemma insert_phase (a d : Pid) (s : GameState) :
    (_checkInsertTurn a d s).phase = s.phase :=
  (insert_frame a d s .p1).2.2.2.2.2.1

@[simp]
lemma insert_mode (a d : Pid) (s : GameState) :
    (_checkInsertTurn a d s).mode = s.mode :=
  (insert_frame a d s .p1).2.2.2.2.2.2

@[simp]
lemma overheat_hp (pid : Pid) (s : GameState) (i : Pid) :
    ((_checkOverheat pid s).getP i).hp = (s.getP i).hp :=
  (overheat_frame pid s i).1

@[simp]
lemma overheat_hand (pid : Pid) (s : GameState) (i : Pid) :
    ((_checkOverheat pid s).getP i).hand = (s.getP i).hand :=
  (overheat_frame pid s i).2.1

@[simp]
lemma overheat_deck (pid : Pid) (s : GameState) (i : Pid) :
    ((_checkOverheat pid s).getP i).deck = (s.getP i).deck :=
  (overheat_frame pid s i).2.2.1

@[simp]
lemma overheat_selected (pid : Pid) (s : GameState) (i : Pid) :
    ((_checkOverheat pid s).getP i).selectedCard = (s.getP i).selectedCard :=
  (overheat_frame pid s i).2.2.2.1

@[simp]
lemma overheat_turn (pid : Pid) (s : GameState) :
    (_checkOverheat pid s).turn = s.turn :=
  (overheat_frame pid s .p1).2.2.2.2.1

@[simp]
lemma overheat_phase (pid : Pid) (s : GameState) :
    (_checkOverheat pid s).phase = s.phase :=
  (overheat_frame pid s .p1).2.2.2.2.2.1

@[simp]
lemma overheat_mode (pid : Pid) (s : GameState) :
    (_checkOverheat pid s).mode = s.mode :=
  (overheat_frame pid s .p1).2.2.2.2.2.2

@[simp]
lemma clear_hp (s : GameState) (i : Pid) :
    ((_clearSelected s).getP i).hp = (s.getP i).hp :=
  (clearSelected_frame s i).1

@[simp]
lemma clear_heat (s : GameState) (i : Pid) :
    ((_clearSelected s).getP i).heat = (s.getP i).heat :=
  (clearSelected_frame s i).2.1

@[simp]
lemma clear_skipped (s : GameState) (i : Pid) :
    ((_clearSelected s).getP i).skipped = (s.getP i).skipped :=
  (clearSelected_frame s i).2.2.1

@[simp]
lemma clear_hand (s : GameState) (i : Pid) :
    ((_clearSelected s).getP i).hand = (s.getP i).hand :=
  (clearSelected_frame s i).2.2.2.1

@[simp]
lemma clear_deck (s : GameState) (i : Pid) :
    ((_clearSelected s).getP i).deck = (s.getP i).deck :=
  (clearSelected_frame s i).2.2.2.2.1

@[simp]
lemma clear_selected (s : GameState) (i : Pid) :
    ((_clearSelected s).getP i).selectedCard = none :=
  (clearSelected_frame s i).2.2.2.2.2.1

@[simp]
lemma clear_turn (s : GameState) : (_clearSelected s).turn = s.turn :=
  (clearSelected_frame s .p1).2.2.2.2.2.2.1

@[simp]
lemma clear_phase (s : GameState) : (_clearSelected s).phase = s.phase :=
  (clearSelected_frame s .p1).2.2.2.2.2.2.2.1

@[simp]
lemma clear_mode (s : GameState) : (_clearSelected s).mode = s.mode :=
  (clearSelected_frame s .p1).2.2.2.2.2.2.2.2

@[simp]
lemma draw_hp (pid : Pid) (s : GameState) (i : Pid) :
    ((_drawCard pid s).getP i).hp = (s.getP i).hp :=
  (drawCard_frame pid s i).1

@[simp]
lemma draw_heat (pid : Pid) (s : GameState) (i : Pid) :
    ((_drawCard pid s).getP i).heat = (s.getP i).heat :=
  (drawCard_frame pid s i).2.1

@[simp]
lemma draw_skipped (pid : Pid) (s : GameState) (i : Pid) :
    ((_drawCard pid s).getP i).skipped = (s.getP i).skipped :=
  (drawCard_frame pid s i).2.2.1

@[simp]
lemma draw_selected (pid : Pid) (s : GameState) (i : Pid) :
    ((_drawCard pid s).getP i).selectedCard = (s.getP i).selectedCard :=
  (drawCard_frame pid s i).2.2.2.1

@[simp]
lemma draw_turn (pid : Pid) (s : GameState) : (_drawCard pid s).turn = s.turn :=
  (drawCard_frame pid s .p1).2.2.2.2.1

@[simp]
lemma draw_phase (pid : Pid) (s : GameState) : (_drawCard pid s).phase = s.phase :=
  (drawCard_frame pid s .p1).2.2.2.2.2.1

@[simp]
lemma draw_mode (pid : Pid) (s : GameState) : (_drawCard pid s).mode = s.mode :=
  (drawCard_frame pid s .p1).2.2.2.2.2.2

@[simp]
lemma getP_phaseUpdate (s : GameState) (ph : Phase) (i : Pid) :
    (({ s with phase := ph } : GameState)).getP i = s.getP i := by
  cases i <;> rfl

/-! ## The overheat check -/

lemma overheat_pos (pid : Pid) (s : GameState) (h : (s.getP pid).heat > 100) :
    _checkOverheat pid s = s.setP pid { s.getP pid with skipped := true, heat := 0 } := by
  simp [_checkOverheat, h]

lemma overheat_neg (pid : Pid) (s : GameState) (h : ¬(s.getP pid).heat > 100) :
    _checkOverheat pid s = s := by
  simp [_checkOverheat, h]

/-- After `_checkOverheat a` then `_checkOverheat (other a)`, every side's
heat is at most 100; a side whose heat exceeded 100 beforehand has
`skipped = true` and heat 0. -/
lemma overheat_pair (a : Pid) (m : GameState) (i : Pid) :
    ((_checkOverheat (other a) (_checkOverheat a m)).getP i).heat ≤ 100 ∧
    ((m.getP i).heat > 100 →
      ((_checkOverheat (other a) (_checkOverheat a m)).getP i).skipped = true ∧
      ((_checkOverheat (other a) (_checkOverheat a m)).getP i).heat = 0) := by
  cases a <;> cases i <;>
    simp only [other, _checkOverheat, GameState.setP, GameState.getP] <;>
    split_ifs <;> simp_all

/-! ## The damage formula -/

lemma floor_max_zero (q : ℚ) : ⌊max 0 q⌋ = max 0 ⌊q⌋ := by
  rcases le_total q 0 with h | h
  · rw [max_eq_left h, Int.floor_zero]
    have hq : ⌊q⌋ ≤ 0 := by simpa using Int.floor_le_floor h
    exact (max_eq_left hq).symm
  · rw [max_eq_right h]
    have hq : 0 ≤ ⌊q⌋ := Int.floor_nonneg.mpr h
    exact (max_eq_right hq).symm

/-- C1: for every card play applied via `_applyCardEffects` with `damage` set
and type attack, letting `A` be the acting side's heat after the card's
`heatChange` has been added and `D` be the acting side's own heat for a
normal attack but the opponent's heat for an insert attack, the opponent's
hp decreases by exactly `⌊max 0 (damage * (A/100) * (1 - D/100))⌋`, and the
acting side's hp is not changed by the damage step (stated for cards with
no heal, so the acting side's hp is untouched by the whole application). -/
theorem applyCardEffects_damage (s : GameState) (pid : Pid) (card : Card)
    (isInsertAttack : Bool) (A D : Int)
    (hd : card.damage ≠ 0) (ht : card.type = .attack) (hh : card.heal = 0)
    (hA : A = (s.getP pid).heat + card.heatChange)
    (hD : D = if isInsertAttack then (s.getP (other pid)).heat else A) :
    ((_applyCardEffects pid card isInsertAttack s).getP (other pid)).hp
      = (s.getP (other pid)).hp
        - ⌊max 0 ((card.damage : ℚ) * ((A : ℚ) / 100) * (1 - (D : ℚ) / 100))⌋ ∧
    ((_applyCardEffects pid card isInsertAttack s).getP pid).hp = (s.getP pid).hp := by
  subst hA hD
  cases pid <;> cases isInsertAttack <;>
    simp only [_applyCardEffects, other, GameState.getP, GameState.setP] <;>
    split_ifs with h1 h2 h3 <;>
    simp_all [floor_max_zero]

/-- C2: after any full turn resolution (classic `_resolveTurn`, or
`_resolveSimultaneousTurn` invoked with both cards selected), neither
side's heat exceeds 100; and every side whose heat exceeded 100 when the
overheat check ran (i.e. after the insert-turn check, resp. after the
effect/insert stage and slot clearing) has `skipped = true` and heat
exactly 0 afterwards. -/
theorem resolve_overheat_invariant (s : GameState) (i : Pid) :
    (((_resolveTurn s).getP i).heat ≤ 100 ∧
      (((_checkInsertTurn s.turn (other s.turn) s).getP i).heat > 100 →
        ((_resolveTurn s).getP i).skipped = true ∧ ((_resolveTurn s).getP i).heat = 0)) ∧
    (∀ c1 c2, s.p1.selectedCard = some c1 → s.p2.selectedCard = some c2 →
      ((_resolveSimultaneousTurn s).getP i).heat ≤ 100 ∧
      (((_clearSelected (_simEffects c1 c2 s)).getP i).heat > 100 →
        ((_resolveSimultaneousTurn s).getP i).skipped = true ∧
        ((_resolveSimultaneousTurn s).getP i).heat = 0)) := by
  constructor
  · have hp := overheat_pair s.turn (_checkInsertTurn s.turn (other s.turn) s) i
    simpa [_resolveTurn] using hp
  · intro c1 c2 h1 h2
    have hres : _resolveSimultaneousTurn s
        = _endTurn (_checkOverheat .p2 (_checkOverheat .p1
            (_clearSelected (_simEffects c1 c2 s)))) := by
      simp [_resolveSimultaneousTurn, h1, h2]
    have hp := overheat_pair .p1 (_clearSelected (_simEffects c1 c2 s)) i
    rw [hres]
    simpa using hp

/-- Witness for C2: in `wOverheat`, p1's heat (150, still 130 after the
simultaneous effects) exceeds 100 at the overheat check, so after either
resolution p1 is skipped with heat 0. -/
theorem resolve_overheat_invariant_witness :
    ((_resolveTurn wOverheat).getP .p1).skipped = true ∧
    ((_resolveTurn wOverheat).getP .p1).heat = 0 ∧
    ((_resolveSimultaneousTurn wOverheat).getP .p1).skipped = true ∧
    ((_resolveSimultaneousTurn wOverheat).getP .p1).heat = 0 := by
  obtain ⟨⟨-, hc⟩, hs⟩ := resolve_overheat_invariant wOverheat .p1
  have h1 := hc (by decide)
  have h2 := (hs cardBlock cardBlock rfl rfl).2 (by decide)
  exact ⟨h1.1, h1.2, h2.1, h2.2⟩

/-- C3: the insert-turn check grants the defender exactly one bonus attack
iff `attacker.heat - defender.heat > 50` (strict, so a difference of
exactly 50 never triggers) and the defender holds an attack-type card in
hand; the card used is the first attack-type card in hand order, and when
no attack card exists (or the difference is ≤ 50) the check leaves the
state unchanged. -/
theorem checkInsertTurn_spec (s : GameState) (a d : Pid) :
    ((s.getP a).heat - (s.getP d).heat > 50 →
      (∀ c, _findAttackCard d s = some c →
        _checkInsertTurn a d s = _applyCardEffects d c true s ∧
        c.type = .attack ∧
        ∃ l1 l2, (s.getP d).hand = l1 ++ c :: l2 ∧
          ∀ b ∈ l1, b.type ≠ CardType.attack) ∧
      (_findAttackCard d s = none → _checkInsertTurn a d s = s)) ∧
    ((s.getP a).heat - (s.getP d).heat ≤ 50 → _checkInsertTurn a d s = s) := by
  refine ⟨fun hgt => ⟨fun c hc => ?_, fun hn => ?_⟩, fun hle => ?_⟩
  · refine ⟨by simp [_checkInsertTurn, hgt, hc], ?_, ?_⟩
    · have := List.find?_some hc
      simpa using this
    · obtain ⟨-, l1, l2, hsplit, hnone⟩ := List.find?_eq_some.mp hc
      exact ⟨l1, l2, hsplit, fun b hb => by simpa using hnone b hb⟩
  · simp [_checkInsertTurn, hgt, hn]
  · simp [_checkInsertTurn, not_lt.mpr hle]

/-- Witness for C3: at heat difference 60 the insert attack fires with the
first attack card (`cardStrike`, skipping the defense card before it); at
heat difference exactly 50 the check changes nothing. -/
theorem checkInsertTurn_spec_witness :
    _checkInsertTurn .p1 .p2 wInsert = _applyCardEffects .p2 cardStrike true wInsert ∧
    cardStrike.type = .attack ∧
    _checkInsertTurn .p1 .p2 wInsert50 = wInsert50 := by
  have h := ((checkInsertTurn_spec wInsert .p1 .p2).1 (by decide)).1 cardStrike (by decide)
  have h50 := (checkInsertTurn_spec wInsert50 .p1 .p2).2 (by decide)
  exact ⟨h.1, h.2.1, h50⟩

/-! ## Hand preservation through turn resolution -/

@[simp]
lemma resolveTurn_hand (s : GameState) (i : Pid) :
    ((_resolveTurn s).getP i).hand = (s.getP i).hand := by
  simp [_resolveTurn]

@[simp]
lemma simEffects_hand (c1 c2 : Card) (s : GameState) (i : Pid) :
    ((_simEffects c1 c2 s).getP i).hand = (s.getP i).hand := by
  unfold _simEffects
  split_ifs <;> simp

@[simp]
lemma resolveSim_hand (s : GameState) (i : Pid) :
    ((_resolveSimultaneousTurn s).getP i).hand = (s.getP i).hand := by
  unfold _resolveSimultaneousTurn
  rcases h1 : s.p1.selectedCard with _ | c1 <;>
    rcases h2 : s.p2.selectedCard with _ | c2 <;> simp

/-- The state a successful classic-mode `playCard` returns. -/
lemma playCard_ok (s : GameState) (pid : Pid) (i : Nat) (c : Card)
    (hm : s.mode = .classic) (hc : (s.getP pid).hand[i]? = some c) :
    playCard pid i s = (
      let s2 := _applyCardEffects pid c false
        (s.setP pid { s.getP pid with hand := (s.getP pid).hand.eraseIdx i });
      if s2.phase = .action ∧ pid = s2.turn then .ok { s2 with phase := .defense }
      else if s2.phase = .defense ∧ pid ≠ s2.turn then .ok (_resolveTurn s2)
      else .ok s2) := by
  simp only [playCard, hm, hc, ne_eq, not_true_eq_false, if_false, reduceCtorEq,
    reduceIte]

/-- The state a successful `playCardSimultaneous` returns. -/
lemma playCardSim_ok (s : GameState) (pid : Pid) (i : Nat) (c : Card)
    (hm : s.mode = .simultaneous) (hc : (s.getP pid).hand[i]? = some c) :
    playCardSimultaneous pid i s = (
      let s1 := s.setP pid
        { s.getP pid with selectedCard := some c, hand := (s.getP pid).hand.eraseIdx i };
      if (s1.getP .p1).selectedCard.isSome ∧ (s1.getP .p2).selectedCard.isSome then
        .ok (_resolveSimultaneousTurn s1)
      else .ok s1) := by
  simp only [playCardSimultaneous, hm, hc, ne_eq, not_true_eq_false, if_false,
    reduceCtorEq, reduceIte]

/-- C4: the insert-turn check never changes either hand (the insert card
stays in the defender's hand), in contrast to normal play: a successful
`playCard` or `playCardSimultaneous` removes the played card (index `i`)
from the acting side's hand. -/
theorem insertAttack_hand_asymmetry (s : GameState) (a d pid : Pid) (i : Nat) (c : Card) :
    (((_checkInsertTurn a d s).getP .p1).hand = (s.getP .p1).hand ∧
     ((_checkInsertTurn a d s).getP .p2).hand = (s.getP .p2).hand) ∧
    (s.mode = .classic → (s.getP pid).hand[i]? = some c →
      ∃ t, playCard pid i s = .ok t ∧
        (t.getP pid).hand = (s.getP pid).hand.eraseIdx i) ∧
    (s.mode = .simultaneous → (s.getP pid).hand[i]? = some c →
      ∃ t, playCardSimultaneous pid i s = .ok t ∧
        (t.getP pid).hand = (s.getP pid).hand.eraseIdx i) := by
  refine ⟨⟨insert_hand a d s .p1, insert_hand a d s .p2⟩, fun hm hc => ?_, fun hm hc => ?_⟩
  · rw [playCard_ok s pid i c hm hc]
    dsimp only
    split_ifs <;> exact ⟨_, rfl, by simp [-apply_turn, -apply_mode, -apply_phase]⟩
  · rw [playCardSim_ok s pid i c hm hc]
    dsimp only
    split_ifs <;> exact ⟨_, rfl, by simp [-apply_turn, -apply_mode, -apply_phase]⟩

/-- Witness for C4: in `wInsert` the insert attack fires (see C3's witness)
yet p2's two-card hand is untouched; while normal play of p2's card 0
removes it, leaving only `cardStrike`. -/
theorem insertAttack_hand_asymmetry_witness :
    ((_checkInsertTurn .p1 .p2 wInsert).getP .p2).hand = [cardBlock, cardStrike] ∧
    (∃ t, playCard .p2 0 wInsert = .ok t ∧ (t.getP .p2).hand = [cardStrike]) := by
  obtain ⟨⟨-, hins⟩, hplay, -⟩ :=
    insertAttack_hand_asymmetry wInsert .p1 .p2 .p2 0 cardBlock
  refine ⟨hins.trans rfl, ?_⟩
  obtain ⟨t, ht, hh⟩ := hplay rfl rfl
  exact ⟨t, ht, hh.trans rfl⟩

/-- Witness for C1 at the spec's worked example: a fresh classic game,
p1 plays `cardStrike` (damage 25, heat 0 → 30): damage
`⌊25 * 0.30 * 0.70⌋ = 5`, so p2's hp goes 100 → 95 and p1's hp stays 100. -/
theorem applyCardEffects_damage_witness :
    ((_applyCardEffects .p1 cardStrike false (initGame [] [] .classic)).getP .p2).hp = 95 ∧
    ((_applyCardEffects .p1 cardStrike false (initGame [] [] .classic)).getP .p1).hp = 100 := by
  have h := applyCardEffects_damage (initGame [] [] .classic) .p1 cardStrike false 30 30
    (by norm_num [cardStrike]) rfl rfl (by norm_num [cardStrike, initGame, GameState.getP]) rfl
  rcases h with ⟨h1, h2⟩
  rw [other_p1] at h1
  constructor
  · rw [h1, floor_max_zero]
    norm_num [cardStrike, initGame, GameState.getP]
  · rw [h2]
    norm_num [initGame, GameState.getP]

/-! ## Error handling of the play methods -/

/-- C5: `playCard` raises invalid-mode whenever the mode is not classic,
`playCardSimultaneous` raises invalid-mode whenever the mode is not
simultaneous, and each raises invalid-card whenever `hand[i]` does not
exist. In every error case the call returns `Except.error` carrying no
state, so the game state is unchanged (the checks precede any mutation in
the source). -/
theorem play_invalid_errors (s : GameState) (pid : Pid) (i : Nat) :
    (s.mode ≠ .classic → playCard pid i s = .error .invalidMode) ∧
    (s.mode = .classic → (s.getP pid).hand[i]? = none →
      playCard pid i s = .error .invalidCard) ∧
    (s.mode ≠ .simultaneous → playCardSimultaneous pid i s = .error .invalidMode) ∧
    (s.mode = .simultaneous → (s.getP pid).hand[i]? = none →
      playCardSimultaneous pid i s = .error .invalidCard) := by
  refine ⟨fun h => ?_, fun hm hc => ?_, fun h => ?_, fun hm hc => ?_⟩ <;>
    simp [playCard, playCardSimultaneous, *]

/-- Witness for C5: `wOverheat` is simultaneous-mode with empty hands and
`wInsert` is classic-mode with p1's hand empty, exercising all four error
cases. -/
theorem play_invalid_errors_witness :
    playCard .p1 0 wOverheat = .error .invalidMode ∧
    playCardSimultaneous .p1 0 wOverheat = .error .invalidCard ∧
    playCardSimultaneous .p1 0 wInsert = .error .invalidMode ∧
    playCard .p1 0 wInsert = .error .invalidCard := by
  refine ⟨(play_invalid_errors wOverheat .p1 0).1 (by decide),
          (play_invalid_errors wOverheat .p1 0).2.2.2 rfl rfl,
          (play_invalid_errors wInsert .p1 0).2.2.1 (by decide),
          (play_invalid_errors wInsert .p1 0).2.1 rfl rfl⟩

/-! ## Simultaneous resolution order -/

/-- C6: in simultaneous resolution the two cards' effects are always
applied p1 first then p2, whatever the type pairing; and when both cards
have the same type (attack/attack or defense/defense) no insert-turn check
runs, whatever the heat gap. -/
theorem simResolution_order (s : GameState) (c1 c2 : Card)
    (h1 : s.p1.selectedCard = some c1) (h2 : s.p2.selectedCard = some c2) :
    (c1.type = c2.type →
      _resolveSimultaneousTurn s =
        _endTurn (_checkOverheat .p2 (_checkOverheat .p1 (_clearSelected
          (_applyCardEffects .p2 c2 false (_applyCardEffects .p1 c1 false s)))))) ∧
    (c1.type = .attack → c2.type = .defense →
      _resolveSimultaneousTurn s =
        _endTurn (_checkOverheat .p2 (_checkOverheat .p1 (_clearSelected
          (_checkInsertTurn .p1 .p2
            (_applyCardEffects .p2 c2 false (_applyCardEffects .p1 c1 false s))))))) ∧
    (c1.type = .defense → c2.type = .attack →
      _resolveSimultaneousTurn s =
        _endTurn (_checkOverheat .p2 (_checkOverheat .p1 (_clearSelected
          (_checkInsertTurn .p2 .p1
            (_applyCardEffects .p2 c2 false (_applyCardEffects .p1 c1 false s))))))) := by
  refine ⟨fun ht => ?_, fun ht1 ht2 => ?_, fun ht1 ht2 => ?_⟩ <;>
    cases hc1 : c1.type <;> cases hc2 : c2.type <;>
      simp_all [_resolveSimultaneousTurn, _simEffects]

/-- Witness for C6: both sides of `wSimAtk` selected attack cards, so
resolution is the no-insert composition, p1's card applied first. -/
theorem simResolution_order_witness :
    _resolveSimultaneousTurn wSimAtk =
      _endTurn (_checkOverheat .p2 (_checkOverheat .p1 (_clearSelected
        (_applyCardEffects .p2 cardStrike false
          (_applyCardEffects .p1 cardStrike false wSimAtk))))) :=
  (simResolution_order wSimAtk cardStrike cardStrike rfl rfl).1 rfl

/-! ## Skipped turns -/

/-- C7: when the active side's `skipped` flag is set, `startTurn` draws no
card and applies no effects: the flag is cleared, the turn passes to the
opponent with phase `end`, and hands, decks, hp and heat of both sides are
unchanged. -/
theorem startTurn_skip (s : GameState) (h : (s.getP s.turn).skipped = true) :
    (startTurn s).turn = other s.turn ∧
    (startTurn s).phase = .done ∧
    ((startTurn s).getP s.turn).skipped = false ∧
    ((startTurn s).getP (other s.turn)).skipped = (s.getP (other s.turn)).skipped ∧
    (∀ i, ((startTurn s).getP i).hand = (s.getP i).hand ∧
          ((startTurn s).getP i).deck = (s.getP i).deck ∧
          ((startTurn s).getP i).hp = (s.getP i).hp ∧
          ((startTurn s).getP i).heat = (s.getP i).heat) := by
  have h0 : (({ s with phase := Phase.start } : GameState).getP s.turn).skipped = true := by
    rw [getP_phaseUpdate]; exact h
  unfold startTurn
  dsimp only
  rw [if_pos h0]
  refine ⟨by simp, by simp, by simp, ?_, fun i => ?_⟩
  · rw [endTurn_getP, getP_setP_ne _ _ (other_ne s.turn), getP_phaseUpdate]
  · by_cases hi : i = s.turn <;> simp [getP_setP, hi]

/-- Witness for C7 at `wSkip` (p1 active and skipped, nonempty decks):
no draw happens, the flag clears, and the turn passes to p2. -/
theorem startTurn_skip_witness :
    (startTurn wSkip).turn = .p2 ∧
    (startTurn wSkip).phase = .done ∧
    ((startTurn wSkip).getP .p1).skipped = false ∧
    ((startTurn wSkip).getP .p1).hand = [cardBlock] ∧
    ((startTurn wSkip).getP .p1).deck = [cardStrike] ∧
    ((startTurn wSkip).getP .p2).hand = [cardStrike] ∧
    ((startTurn wSkip).getP .p2).deck = [cardBlock] := by
  obtain ⟨ht, hp, hsk, -, hall⟩ := startTurn_skip wSkip rfl
  exact ⟨ht, hp, hsk, (hall .p1).1.trans rfl, (hall .p1).2.1.trans rfl,
         (hall .p2).1.trans rfl, (hall .p2).2.1.trans rfl⟩

/-! ## Game over -/

/-- C8: the game-over evaluator reports game over exactly when some side's
hp is ≤ 0, and whenever p1's hp is ≤ 0 (in particular when both are) p1's
defeat is detected first and p2 is the declared winner. -/
theorem checkGameOver_spec (s : GameState) :
    ((_checkGameOver s).isSome ↔ s.p1.hp ≤ 0 ∨ s.p2.hp ≤ 0) ∧
    (s.p1.hp ≤ 0 → s.p2.hp ≤ 0 → _checkGameOver s = some .p2) := by
  unfold _checkGameOver
  split_ifs <;> simp_all

/-- Witness for C8 at `wDead` (hp −5 and −3): both sides are down yet p2
is declared the winner. -/
theorem checkGameOver_spec_witness : _checkGameOver wDead = some .p2 :=
  (checkGameOver_spec wDead).2 (by decide) (by decide)

/-! ## hp never exceeds 100 -/

lemma apply_hp_le (pid : Pid) (c : Card) (b : Bool) (s : GameState) (i : Pid)
    (h : (s.getP i).hp ≤ 100) :
    ((_applyCardEffects pid c b s).getP i).hp ≤ 100 := by
  cases pid <;> cases i <;>
    simp only [_applyCardEffects, other, GameState.getP, GameState.setP] at h ⊢ <;>
    split_ifs <;>
    (try dsimp only) <;>
    first
      | exact h
      | exact le_trans (sub_le_self _ (le_max_left 0 _)) h
      | exact min_le_left _ _

lemma insert_hp_le (a d : Pid) (s : GameState) (i : Pid) (h : (s.getP i).hp ≤ 100) :
    ((_checkInsertTurn a d s).getP i).hp ≤ 100 := by
  unfold _checkInsertTurn
  dsimp only
  split_ifs
  · cases _findAttackCard d s with
    | some c => exact apply_hp_le d c true s i h
    | none => exact h
  · exact h

lemma simEffects_hp_le (c1 c2 : Card) (s : GameState) (i : Pid)
    (h : (s.getP i).hp ≤ 100) :
    ((_simEffects c1 c2 s).getP i).hp ≤ 100 := by
  unfold _simEffects
  split_ifs <;>
    first
      | exact apply_hp_le _ _ _ _ _ (apply_hp_le _ _ _ _ _ h)
      | exact insert_hp_le _ _ _ _ (apply_hp_le _ _ _ _ _ (apply_hp_le _ _ _ _ _ h))

lemma resolveTurn_hp_le (s : GameState) (i : Pid) (h : (s.getP i).hp ≤ 100) :
    ((_resolveTurn s).getP i).hp ≤ 100 := by
  unfold _resolveTurn
  dsimp only
  rw [endTurn_getP, overheat_hp, overheat_hp]
  exact insert_hp_le _ _ _ _ h

lemma resolveSim_hp_le (s : GameState) (i : Pid) (h : (s.getP i).hp ≤ 100) :
    ((_resolveSimultaneousTurn s).getP i).hp ≤ 100 := by
  unfold _resolveSimultaneousTurn
  rcases h1 : s.p1.selectedCard with _ | c1 <;>
    rcases h2 : s.p2.selectedCard with _ | c2 <;>
    simp only [h1, h2]
  · exact h
  · exact h
  · exact h
  · rw [endTurn_getP, overheat_hp, overheat_hp, clear_hp]
    exact simEffects_hp_le _ _ _ _ h

lemma startTurn_hp_le (s : GameState) (i : Pid) (h : (s.getP i).hp ≤ 100) :
    ((startTurn s).getP i).hp ≤ 100 := by
  unfold startTurn
  dsimp only
  split_ifs
  · rw [endTurn_getP, getP_setP]
    split_ifs with hi
    · subst hi; simpa using h
    · simpa using h
  · rw [getP_phaseUpdate, draw_hp, draw_hp, getP_phaseUpdate]
    exact h

lemma init_hp (d1 d2 : List Card) (m : Mode) (i : Pid) :
    ((initGame d1 d2 m).getP i).hp = 100 := by
  cases i <;> rfl

lemma playCard_hp_le {pid : Pid} {i : Nat} {s t : GameState}
    (hok : playCard pid i s = .ok t) (h : ∀ j, (s.getP j).hp ≤ 100) (j : Pid) :
    (t.getP j).hp ≤ 100 := by
  unfold playCard at hok
  split_ifs at hok
  rcases hc : (s.getP pid).hand[i]? with _ | c <;> simp only [hc] at hok
  · cases hok
  · have hbase : ∀ k, (((s.setP pid
        { s.getP pid with hand := (s.getP pid).hand.eraseIdx i }).getP k)).hp ≤ 100 := by
      intro k
      rw [getP_setP]
      split_ifs with hk
      · simpa using h pid
      · exact h k
    split_ifs at hok <;> injection hok with hok <;> subst hok
    · rw [getP_phaseUpdate]
      exact apply_hp_le _ _ _ _ _ (hbase j)
    · exact resolveTurn_hp_le _ _ (apply_hp_le _ _ _ _ _ (hbase j))
    · exact apply_hp_le _ _ _ _ _ (hbase j)

lemma playCardSim_hp_le {pid : Pid} {i : Nat} {s t : GameState}
    (hok : playCardSimultaneous pid i s = .ok t) (h : ∀ j, (s.getP j).hp ≤ 100) (j : Pid) :
    (t.getP j).hp ≤ 100 := by
  unfold playCardSimultaneous at hok
  split_ifs at hok
  rcases hc : (s.getP pid).hand[i]? with _ | c <;> simp only [hc] at hok
  · cases hok
  · have hbase : ∀ k, (((s.setP pid
        { s.getP pid with selectedCard := some c,
                          hand := (s.getP pid).hand.eraseIdx i }).getP k)).hp ≤ 100 := by
      intro k
      rw [getP_setP]
      split_ifs with hk
      · simpa using h pid
      · exact h k
    split_ifs at hok <;> injection hok with hok <;> subst hok
    · exact resolveSim_hp_le _ _ (hbase j)
    · exact hbase j

lemma reachable_hp_le {s : GameState} (h : Reachable s) : ∀ j, (s.getP j).hp ≤ 100 := by
  induction h with
  | init d1 d2 m => intro j; rw [init_hp]
  | start _ ih => exact fun j => startTurn_hp_le _ _ (ih j)
  | play _ hok ih => exact playCard_hp_le hok ih
  | playSim _ hok ih => exact playCardSim_hp_le hok ih

/-- C9: a card with `heal` set sets the acting side's hp to
`min 100 (hp + heal)`; and since damage only ever decreases hp while heal
clamps at 100, every reachable game state keeps both sides' hp ≤ 100. -/
theorem heal_clamp_hp_invariant (s : GameState) (pid i : Pid) (card : Card) (b : Bool) :
    (card.heal ≠ 0 → ((_applyCardEffects pid card b s).getP pid).hp
        = min 100 ((s.getP pid).hp + card.heal)) ∧
    (Reachable s → (s.getP i).hp ≤ 100) := by
  constructor
  · intro hh
    cases pid <;>
      simp only [_applyCardEffects, other, GameState.getP, GameState.setP] <;>
      split_ifs <;> (try dsimp only)
  · intro hr
    exact reachable_hp_le hr i

/-- Witness for C9: healing 50 at hp 70 clamps to 100 (`wSkip`), and the
constructor's state is reachable with hp 100 ≤ 100. -/
theorem heal_clamp_hp_invariant_witness :
    ((_applyCardEffects .p1 cardHeal false wSkip).getP .p1).hp = 100 ∧
    ((initGame [cardStrike] [cardBlock] .classic).getP .p1).hp ≤ 100 := by
  obtain ⟨hheal, -⟩ := heal_clamp_hp_invariant wSkip .p1 .p1 cardHeal false
  obtain ⟨-, hreach⟩ :=
    heal_clamp_hp_invariant (initGame [cardStrike] [cardBlock] .classic) .p1 .p1 cardHeal false
  refine ⟨?_, hreach (Reachable.init _ _ _)⟩
  rw [hheal (by decide)]
  decide

/-! ## Double selection in simultaneous mode -/

/-- C10: if the same side selects twice before the opponent has selected,
both chosen cards leave that side's hand, the first selection is
overwritten by the second without its effects ever being applied (hp, heat
and skipped of both sides are untouched, and no resolution runs: turn and
phase are unchanged), and only the second card sits in `selectedCard` for
the eventual resolution. -/
theorem doubleSelect_overwrites (s : GameState) (pid : Pid) (i j : Nat) (ci cj : Card)
    (t1 : GameState)
    (hm : s.mode = .simultaneous)
    (hopp : (s.getP (other pid)).selectedCard = none)
    (hi : (s.getP pid).hand[i]? = some ci)
    (h1 : playCardSimultaneous pid i s = .ok t1)
    (hj : (t1.getP pid).hand[j]? = some cj) :
    ∃ t2, playCardSimultaneous pid j t1 = .ok t2 ∧
      (t2.getP pid).selectedCard = some cj ∧
      (t2.getP pid).hand = ((s.getP pid).hand.eraseIdx i).eraseIdx j ∧
      (∀ k, (t2.getP k).hp = (s.getP k).hp ∧ (t2.getP k).heat = (s.getP k).heat ∧
            (t2.getP k).skipped = (s.getP k).skipped) ∧
      t2.turn = s.turn ∧ t2.phase = s.phase := by
  have hsel1 : ((s.setP pid
      { s.getP pid with selectedCard := some ci,
                        hand := (s.getP pid).hand.eraseIdx i }).getP
      (other pid)).selectedCard = none := by
    rw [getP_setP_ne _ _ (other_ne pid)]; exact hopp
  rw [playCardSim_ok s pid i ci hm hi] at h1
  dsimp only at h1
  cases pid <;>
  · simp only [other_p1, other_p2] at hsel1 hopp
    rw [if_neg (by simp [hsel1, hopp])] at h1
    injection h1 with h1
    subst h1
    rw [playCardSim_ok _ _ j cj (by simp [hm]) hj]
    dsimp only
    rw [if_neg (by simp [getP_setP, hsel1, hopp])]
    refine ⟨_, rfl, by simp, by simp [getP_setP], fun k => ?_, by simp, by simp⟩
    cases k <;> simp [getP_setP]

/-- Witness for C10: in `wDouble` p1 selects slot 0 (`cardBlock`) and then
slot 0 again (`cardStrike`) while p2 has not selected; both cards are gone
from p1's hand, `cardStrike` has overwritten the selection, and nobody's
hp changed (the first card's effects were never applied, no resolution
ran). -/
theorem doubleSelect_overwrites_witness :
    ∃ t2, playCardSimultaneous .p1 0 wDouble1 = .ok t2 ∧
      (t2.getP .p1).selectedCard = some cardStrike ∧
      (t2.getP .p1).hand = [] ∧
      (t2.getP .p1).hp = 100 ∧ (t2.getP .p2).hp = 100 ∧
      t2.turn = .p1 ∧ t2.phase = .action := by
  have h1 : playCardSimultaneous .p1 0 wDouble = .ok wDouble1 := by
    rw [playCardSim_ok wDouble .p1 0 cardBlock rfl rfl]
    dsimp only
    rw [if_neg (by decide)]
    rfl
  obtain ⟨t2, ht2, hsel, hhand, hfields, hturn, hphase⟩ :=
    doubleSelect_overwrites wDouble .p1 0 0 cardBlock cardStrike wDouble1 rfl rfl rfl h1 rfl
  exact ⟨t2, ht2, hsel, hhand.trans rfl, ((hfields .p1).1).trans rfl,
    ((hfields .p2).1).trans rfl, hturn.trans rfl, hphase.trans rfl⟩
